import Mathlib

set_option maxRecDepth 8192

/-!
Shallow embedding of the mfe-sentry core: the event-filter, stack-frame
extraction, legacy onerror parsing and initial-frame enhancement of
src/utils.ts, and the dispatcher entry points of the MFESentry class.
JavaScript machine values that these functions inspect dynamically are
modelled by the inductive `JSVal`; external primitives (the stack parser,
the current document location, the minified-framework message pattern of
src/constants.ts, which is not among the sources) are taken as parameters.
-/

namespace MfeSentry

/-- A dynamic JavaScript value, as far as the embedded code inspects one:
undefined, null, booleans, (integral) numbers, strings, and plain objects
as association lists of own properties. -/
inductive JSVal : Type where
  | undef : JSVal
  | null : JSVal
  | bool (b : Bool) : JSVal
  | num (n : Int) : JSVal
  | str (s : String) : JSVal
  | obj (fields : List (String × JSVal)) : JSVal

/-- JavaScript truthiness of a `JSVal`. -/
def truthy : JSVal → Bool
  | JSVal.undef => false
  | JSVal.null => false
  | JSVal.bool b => b
  | JSVal.num n => n != 0
  | JSVal.str s => s != ""
  | JSVal.obj _ => true

/-- Property read `v[key]`: the own property of an object, `undefined` on
anything else (the embedded code only reads properties of truthy values,
where primitive reads yield `undefined`). -/
def jsGet : JSVal → String → JSVal
  | JSVal.obj fields, key =>
      match fields.find? (fun p => p.1 == key) with
      | some p => p.2
      | none => JSVal.undef
  | _, _ => JSVal.undef

/-- `String(v)` on the values of the model (an object with no custom
conversion stringifies to the fixed object tag). -/
def jsToString : JSVal → String
  | JSVal.undef => "undefined"
  | JSVal.null => "null"
  | JSVal.bool true => "true"
  | JSVal.bool false => "false"
  | JSVal.num n => toString n
  | JSVal.str s => s
  | JSVal.obj _ => "[object Object]"

def JSVal.isUndef : JSVal → Bool
  | JSVal.undef => true
  | _ => false

def JSVal.isEmptyStr : JSVal → Bool
  | JSVal.str "" => true
  | _ => false

def JSVal.isStr : JSVal → Bool
  | JSVal.str _ => true
  | _ => false

def JSVal.isNum : JSVal → Bool
  | JSVal.num _ => true
  | _ => false

/-- `isPrimitive` of sentry-utils: everything that is not an object. -/
def JSVal.isPrim : JSVal → Bool
  | JSVal.obj _ => false
  | _ => true

/-- `needle` is a prefix of `hay`, over character lists. -/
def charsStartWith : List Char → List Char → Bool
  | _, [] => true
  | [], _ :: _ => false
  | a :: as, b :: bs => (a == b) && charsStartWith as bs

/-- `needle` occurs contiguously in `hay`, over character lists. -/
def charsContain : List Char → List Char → Bool
  | [], needle => needle.isEmpty
  | c :: t, needle => charsStartWith (c :: t) needle || charsContain t needle

/-- JavaScript `s.includes(sub)`: substring containment. -/
def jsIncludes (s sub : String) : Bool := charsContain s.data sub.data

/-- `needle` is a prefix of `hay` up to ASCII case, over character lists
(models the case-insensitive flag of the legacy onerror pattern on the
ASCII class names it contains). -/
def charsCIStartWith : List Char → List Char → Bool
  | _, [] => true
  | [], _ :: _ => false
  | a :: as, b :: bs => (a.toLower == b.toLower) && charsCIStartWith as bs

/-- `pat` is a case-insensitive prefix of `s`. -/
def ciStartsWith (s pat : String) : Bool := charsCIStartWith s.data pat.data

/-- `parseInt(v, 10)`: stringify, skip leading whitespace, optional sign,
then the leading run of decimal digits; `none` models `NaN`. -/
def parseIntBase10 (v : JSVal) : Option Int :=
  let cs := (jsToString v).data.dropWhile (fun c => c.isWhitespace)
  let signRest : Int × List Char :=
    match cs with
    | '-' :: t => (-1, t)
    | '+' :: t => (1, t)
    | _ => (1, cs)
  let ds := signRest.2.takeWhile (fun c => c.isDigit)
  if ds.isEmpty then none
  else some (signRest.1 * Int.ofNat (ds.foldl (fun a c => a * 10 + (c.toNat - 48)) 0))

/-- A stack frame as this code builds and forwards them. The enhancer
stores the raw url/line/column values it was handed, so the fields are
dynamic values, not numbers. -/
structure StackFrame where
  colno : JSVal := JSVal.undef
  filename : JSVal := JSVal.undef
  function : JSVal := JSVal.undef
  in_app : JSVal := JSVal.undef
  lineno : JSVal := JSVal.undef

/-- `{ frames?: StackFrame[] }`. -/
structure Stacktrace where
  frames : Option (List StackFrame) := none

/-- A Sentry `Exception` record `{ type?, value?, stacktrace? }`. -/
structure Exception where
  type : JSVal := JSVal.undef
  value : JSVal := JSVal.undef
  stacktrace : Option Stacktrace := none

/-- `event.exception`: `{ values?: Exception[] }`. -/
structure ExceptionValues where
  values : Option (List Exception) := none

/-- The canonical event, restricted to the fields the embedded paths
read or write. -/
structure Event where
  exception : Option ExceptionValues := none
  message : Option String := none
  level : Option String := none

/-- The exception list of an event (empty when any level is absent). -/
def Event.exceptionList (event : Event) : List Exception :=
  match event.exception with
  | some e => e.values.getD []
  | none => []

/-- `event.exception.values[0].stacktrace.frames`, empty when any level
of the chain is absent. -/
def Event.firstFrames (event : Event) : List StackFrame :=
  match event.exception with
  | none => []
  | some e =>
    match e.values with
    | none => []
    | some [] => []
    | some (v :: _) =>
      match v.stacktrace with
      | none => []
      | some st => st.frames.getD []

/-- An allow/deny list entry of src/types.ts: a literal substring or a
RegExp; the RegExp is a platform builtin, modelled by its match predicate
(`url.match(re) != null`). -/
inductive SubURL : Type where
  | literal (s : String) : SubURL
  | pattern (test : String → Bool) : SubURL

/-- `CustomEventFilterFunction` of src/types.ts. -/
def CustomEventFilterFunction : Type := Event → String → Bool

/-- Whether a single entry matches the url, as tested inside
`doesIncludeSubURLs` of src/utils.ts. -/
def matchesSubURL (url : String) : SubURL → Bool
  | SubURL.pattern t => t url
  | SubURL.literal s => jsIncludes url s

/-- `doesIncludeSubURLs` of src/utils.ts: `null` (here `none`) on an empty
list, else whether some entry matches. -/
def doesIncludeSubURLs (url : String) (subURLs : List SubURL) : Option Bool :=
  if subURLs.length = 0 then none
  else some (subURLs.any (matchesSubURL url))

/-- Truthiness of the `boolean | null` result of `doesIncludeSubURLs`. -/
def optTruthy : Option Bool → Bool
  | none => false
  | some b => b

/-- `shouldCaptureError` of src/utils.ts. -/
def shouldCaptureError (event : Event) (url : String)
    (allowUrls denyUrls : List SubURL)
    (customEventFilter : Option CustomEventFilterFunction) : Bool :=
  if decide (denyUrls.length > 0) && optTruthy (doesIncludeSubURLs url denyUrls) then
    false
  else if decide (allowUrls.length > 0) && !optTruthy (doesIncludeSubURLs url allowUrls) then
    true
  else
    match customEventFilter with
    | some f => f event url
    | none => true

/-- A throwable as the copied Sentry helpers of src/utils.ts probe it:
`name` and `message` are arbitrary dynamic values, `stack` and the Opera
`stacktrace` are trace strings when present, `framesToPop` is the numeric
override when it is a number. -/
structure JSError where
  name : JSVal := JSVal.undef
  message : JSVal := JSVal.undef
  stack : Option String := none
  stacktrace : Option String := none
  framesToPop : Option Int := none

/-- `ex.stacktrace || ex.stack || the empty string` (the first field that
is present and not the empty string wins). -/
def stackTraceInput (ex : JSError) : String :=
  match ex.stacktrace with
  | some s => if s != "" then s else (match ex.stack with
      | some t => if t != "" then t else ""
      | none => "")
  | none =>
    match ex.stack with
    | some t => if t != "" then t else ""
    | none => ""

/-- `extractMessage` of src/utils.ts: `"No error message"` on a falsy
message; the nested `message.error.message` when that is a string; else
the message value itself (which the source then stores untouched, even
when it is not a string). -/
def extractMessage (ex : JSError) : JSVal :=
  let message := ex.message
  if truthy message = false then JSVal.str "No error message"
  else
    let err := jsGet message "error"
    if truthy err && (jsGet err "message").isStr then jsGet err "message"
    else message

/-- `getPopSize` of src/utils.ts; `reactTest` stands for the match test of
`reactMinifiedRegexp`, which lives in src/constants.ts (not among the
sources) and is passed in as a parameter. -/
def getPopSize (reactTest : String → Bool) (ex : JSError) : Int :=
  match ex.framesToPop with
  | some n => n
  | none => if reactTest (jsToString ex.message) then 1 else 0

/-- `parseStackFrames` of src/utils.ts: hand the trace text and the pop
count to the supplied stack-parser primitive and degrade any failure of
the primitive to the empty frame list. -/
def parseStackFrames (stackParser : String → Int → Except Unit (List StackFrame))
    (reactTest : String → Bool) (ex : JSError) : List StackFrame :=
  let stacktrace := stackTraceInput ex
  let popSize := getPopSize reactTest ex
  match stackParser stacktrace popSize with
  | Except.ok frames => frames
  | Except.error _ => []

/-- The exception `exceptionFromError` of src/utils.ts builds before its
final empty-exception fixup: `type = ex.name`, `value = extractMessage ex`,
and a `stacktrace` key only when the parsed frame list is non-empty. -/
def rawExceptionFromError (stackParser : String → Int → Except Unit (List StackFrame))
    (reactTest : String → Bool) (ex : JSError) : Exception :=
  let frames := parseStackFrames stackParser reactTest ex
  let exc : Exception := { type := ex.name, value := extractMessage ex }
  if frames.length ≠ 0 then { exc with stacktrace := some { frames := some frames } }
  else exc

/-- `exceptionFromError` of src/utils.ts. -/
def exceptionFromError (stackParser : String → Int → Except Unit (List StackFrame))
    (reactTest : String → Bool) (ex : JSError) : Exception :=
  let exc := rawExceptionFromError stackParser reactTest ex
  if exc.type.isUndef && exc.value.isEmptyStr then
    { exc with value := JSVal.str "Unrecoverable error caught" }
  else exc

/-- The `colno`/`lineno` locals of `enhanceEventWithInitialFrame`:
`isNaN(parseInt(v, 10)) ? undefined : v` — note the source hands back the
original value, not the parsed number. -/
def initialFrameNumField (v : JSVal) : JSVal :=
  if (parseIntBase10 v).isNone then JSVal.undef else v

/-- The `filename` local of `enhanceEventWithInitialFrame`: the url when
it is a non-empty string, else the document location `loc`. -/
def initialFrameFilename (loc : String) (url : JSVal) : JSVal :=
  match url with
  | JSVal.str s => if s.length > 0 then JSVal.str s else JSVal.str loc
  | _ => JSVal.str loc

/-- `enhanceEventWithInitialFrame` of src/utils.ts: materialize every
level of `event.exception.values[0].stacktrace.frames` with empty
defaults, then push the one synthetic frame only when the frame list is
empty. `loc` stands for the external `getLocationHref()`. -/
def enhanceEventWithInitialFrame (loc : String) (event : Event)
    (url line column : JSVal) : Event :=
  let e := event.exception.getD {}
  let ev := e.values.getD []
  let ev0 := ev.headD {}
  let ev0s := ev0.stacktrace.getD {}
  let ev0sf := ev0s.frames.getD []
  let colno := initialFrameNumField column
  let lineno := initialFrameNumField line
  let filename := initialFrameFilename loc url
  let newFrames :=
    if ev0sf.length = 0 then
      ev0sf ++ [{ colno := colno, filename := filename, function := JSVal.str "?",
                  in_app := JSVal.bool true, lineno := lineno }]
    else ev0sf
  let newEv0 : Exception :=
    { ev0 with stacktrace := some { ev0s with frames := some newFrames } }
  let newE : ExceptionValues := { e with values := some (newEv0 :: ev.tail) }
  { event with exception := some newE }

/-- True on the four JavaScript line terminators, which `.` of the legacy
onerror pattern never matches, so the pattern fails on any message that
contains one. -/
def isJSLineTerminator (c : Char) : Bool :=
  c == '\n' || c == '\r' || c == Char.ofNat 0x2028 || c == Char.ofNat 0x2029

/-- The optional leading prefix `[Uu]ncaught (?:exception: )?` of the
legacy onerror pattern, stripped greedily and case-insensitively. -/
def stripUncaught (s : String) : String :=
  if ciStartsWith s "uncaught exception: " then String.mk (s.data.drop 20)
  else if ciStartsWith s "uncaught " then String.mk (s.data.drop 9)
  else s

/-- The alternatives of the class-name group of the legacy onerror
pattern, in the order the pattern tries them (the trailing empty
alternative makes bare `Error` the last). -/
def errorClassNames : List String :=
  ["EvalError", "InternalError", "RangeError", "ReferenceError",
   "SyntaxError", "TypeError", "URIError", "Error"]

/-- The first class name such that `name ++ ": "` is a case-insensitive
prefix of `s` (no two distinct alternatives can match the same position). -/
def findErrorClass (s : String) : Option String :=
  errorClassNames.find? (fun cls => ciStartsWith s (cls ++ ": "))

/-- `message.match(ERROR_TYPES_RE)` of `eventFromIncompleteOnError`:
`none` when the pattern fails (only possible when the message contains a
line terminator); otherwise the pair of the optional class-name capture
(in the original case of the input) and the trailing capture. -/
def matchERROR_TYPES (message : String) : Option (Option String × String) :=
  if message.data.any isJSLineTerminator then none
  else
    let s1 := stripUncaught message
    match findErrorClass s1 with
    | some cls => some (some (String.mk (s1.data.take cls.length)),
                        String.mk (s1.data.drop (cls.length + 2)))
    | none => some (none, s1)

/-- `eventFromIncompleteOnError` of src/utils.ts, for a string message
(the ErrorEvent unwrapping branch does not apply to strings). When the
pattern matches, `name` is overwritten with the class-name capture even
when that capture is absent (`groups[1]` is then `undefined`); the
`"Error"` default survives only when the whole pattern fails. -/
def eventFromIncompleteOnError (loc : String) (msg : String)
    (url line column : JSVal) : Event :=
  let nameMessage : JSVal × String :=
    match matchERROR_TYPES msg with
    | some (some g1, g2) => (JSVal.str g1, g2)
    | some (none, g2) => (JSVal.undef, g2)
    | none => (JSVal.str "Error", msg)
  let exc : Exception := { type := nameMessage.1, value := JSVal.str nameMessage.2 }
  let event : Event := { exception := some { values := some [exc] } }
  enhanceEventWithInitialFrame loc event url line column

/-- `MFESentry._eventFromRejectionWithPrimitive`. -/
def eventFromRejectionWithPrimitive (reason : JSVal) : Event :=
  let exc : Exception :=
    { type := JSVal.str "UnhandledRejection",
      value := JSVal.str ("Non-Error promise rejection captured with value: "
        ++ jsToString reason) }
  { exception := some { values := some [exc] } }

/-- The reason-unwrapping of `MFESentry.handleUnhandledRejection`: the
`reason` field when present, else the nested `detail.reason`; the `in`
operator throws on a primitive operand and the surrounding try block then
leaves the signal itself as the error, which the fallthrough branches
also produce. -/
def unwrapRejectionReason (e : JSVal) : JSVal :=
  match e with
  | JSVal.obj fields =>
      match fields.find? (fun p => p.1 == "reason") with
      | some p => p.2
      | none =>
        match fields.find? (fun p => p.1 == "detail") with
        | some d =>
            match d.2 with
            | JSVal.obj dfields =>
                match dfields.find? (fun q => q.1 == "reason") with
                | some q => q.2
                | none => e
            | _ => e
        | none => e
  | _ => e

/-- The event-construction part of `MFESentry.handleUnhandledRejection`:
unwrap the reason, short-circuit (`none`) on the own-request marker, then
build the event — through `_eventFromRejectionWithPrimitive` for a
primitive reason, through `eventFromUnknownInput` (here the abstract
`classify`, whose plain-object path this development does not model) for
anything else — and force `level` to `"error"`. The later URL filtering
and capture of the handler are not modelled. -/
def rejectionEventFromSignal (classify : JSVal → Event) (e : JSVal) : Option Event :=
  let error := unwrapRejectionReason e
  if truthy error && truthy (jsGet error "__sentry_own_request__") then none
  else
    let event :=
      if error.isPrim then eventFromRejectionWithPrimitive error
      else classify error
    some { event with level := some "error" }

/-- An arbitrary error object handed to `MFESentry.captureExecption`:
whether it is an `AxiosError` instance, and its own `name` property when
it has one. -/
structure CaptureCandidate where
  isAxiosInstance : Bool := false
  name : Option String := none

/-- `isNetworkError` of src/utils.ts. -/
def isNetworkError (error : CaptureCandidate) : Bool :=
  if error.isAxiosInstance then true
  else if error.name == some "NetworkError" then true
  else false

/-- `MFESentry.captureExecption` (source spelling), reduced to its
observable effect: whether the error is forwarded to the hub. -/
def captureExecption (hubSet : Bool) (error : CaptureCandidate)
    (forceSendingNetworkError : Bool) : Bool :=
  hubSet && (forceSendingNetworkError || !isNetworkError error)

/-! ## Theorems -/

/-- Claim C1: for every event, url, allow list, deny list and optional
custom filter, if the url matches at least one deny entry (substring
containment for literal entries, pattern match for pattern entries; the
match forces the deny list to be non-empty), then `shouldCaptureError`
returns false, regardless of the allow list and of any custom filter. -/
theorem shouldCaptureError_denyMatch_rejects (event : Event) (url : String)
    (allowUrls denyUrls : List SubURL)
    (customEventFilter : Option CustomEventFilterFunction)
    (h : denyUrls.any (matchesSubURL url) = true) :
    shouldCaptureError event url allowUrls denyUrls customEventFilter = false := by
  cases denyUrls with
  | nil => simp at h
  | cons d ds => simp [shouldCaptureError, doesIncludeSubURLs, optTruthy, h]

theorem shouldCaptureError_denyMatch_rejects_spot :
    shouldCaptureError {} "https://bad.example/x" [SubURL.literal "good"]
      [SubURL.literal "bad"] (some (fun _ _ => true)) = false :=
  shouldCaptureError_denyMatch_rejects {} "https://bad.example/x"
    [SubURL.literal "good"] [SubURL.literal "bad"] (some (fun _ _ => true)) rfl

/-- Claim C2: for every event, url and custom filter, if no deny entry
matches the url (in particular when the deny list is empty) and the allow
list is non-empty but no allow entry matches the url, then
`shouldCaptureError` returns true, whatever the custom filter is. -/
theorem shouldCaptureError_allowMiss_accepts (event : Event) (url : String)
    (allowUrls denyUrls : List SubURL)
    (customEventFilter : Option CustomEventFilterFunction)
    (hdeny : denyUrls.any (matchesSubURL url) = false)
    (hne : allowUrls ≠ [])
    (hallow : allowUrls.any (matchesSubURL url) = false) :
    shouldCaptureError event url allowUrls denyUrls customEventFilter = true := by
  cases allowUrls with
  | nil => exact absurd rfl hne
  | cons a as =>
    cases denyUrls with
    | nil => simp [shouldCaptureError, doesIncludeSubURLs, optTruthy, hallow]
    | cons d ds =>
      simp [shouldCaptureError, doesIncludeSubURLs, optTruthy, hdeny, hallow]

theorem shouldCaptureError_allowMiss_accepts_spot :
    shouldCaptureError {} "https://app.example/x" [SubURL.literal "cdn"] []
      (some (fun _ _ => false)) = true :=
  shouldCaptureError_allowMiss_accepts {} "https://app.example/x"
    [SubURL.literal "cdn"] [] (some (fun _ _ => false)) rfl
    (List.cons_ne_nil _ _) rfl

/-- Claim C8: the legacy onerror input (message `Uncaught TypeError: x is
not a function`, url `app.js`, line 10, column 5, no error object) yields
an event whose sole exception entry is type `TypeError`, value `x is not
a function`, with exactly the one synthetic frame
(filename `app.js`, lineno 10, colno 5, function `?`, in_app true). -/
theorem eventFromIncompleteOnError_typeError_scenario :
    eventFromIncompleteOnError "https://fallback.example/"
        "Uncaught TypeError: x is not a function"
        (JSVal.str "app.js") (JSVal.num 10) (JSVal.num 5)
      = { exception := some { values := some
                                [{ type := JSVal.str "TypeError",
                                   value := JSVal.str "x is not a function",
                                   stacktrace := some { frames := some
                                                          [{ colno := JSVal.num 5,
                                                             filename := JSVal.str "app.js",
                                                             function := JSVal.str "?",
                                                             in_app := JSVal.bool true,
                                                             lineno := JSVal.num 10 }] } }] } } := by
  rfl

/-- Claim C3 counterexample: on the message `oops` no class name is
recognized, yet the sole exception entry has type undefined — not the
string `Error` the claim states — because the pattern still matches and
its absent class capture overwrites the default. -/
theorem eventFromIncompleteOnError_bareMessage_type_undef :
    (eventFromIncompleteOnError "https://fallback.example/" "oops"
        (JSVal.str "app.js") (JSVal.num 1) (JSVal.num 2)).exceptionList.map
        (fun ex => (ex.type, ex.value))
      = [(JSVal.undef, JSVal.str "oops")] := by
  rfl

/-- Claim C3 amended: for every single-line message (no JavaScript line
terminator) in which no known error-class name is recognized after
stripping the optional `Uncaught`/`exception:` prefix,
`eventFromIncompleteOnError` produces an event whose sole exception entry
has type undefined (the unmatched capture group overwrites the `Error`
default) and value equal to the remaining message text. -/
theorem eventFromIncompleteOnError_unrecognized_amended (loc msg : String)
    (url line column : JSVal)
    (hsingle : msg.data.any isJSLineTerminator = false)
    (hnoclass : findErrorClass (stripUncaught msg) = none) :
    (eventFromIncompleteOnError loc msg url line column).exceptionList.map
        (fun ex => (ex.type, ex.value))
      = [(JSVal.undef, JSVal.str (stripUncaught msg))] := by
  simp [eventFromIncompleteOnError, matchERROR_TYPES, hsingle, hnoclass,
    enhanceEventWithInitialFrame, Event.exceptionList]

theorem eventFromIncompleteOnError_unrecognized_amended_spot :
    (eventFromIncompleteOnError "https://fallback.example/" "plain failure"
        (JSVal.str "a.js") (JSVal.num 1) (JSVal.num 2)).exceptionList.map
        (fun ex => (ex.type, ex.value))
      = [(JSVal.undef, JSVal.str "plain failure")] :=
  eventFromIncompleteOnError_unrecognized_amended "https://fallback.example/"
    "plain failure" (JSVal.str "a.js") (JSVal.num 1) (JSVal.num 2) rfl rfl

/-- Claim C7: for every unhandled-rejection signal whose unwrapped reason
(the `reason` field, or the nested `detail.reason`, or the signal itself)
is a primitive, the produced event carries exactly one exception entry of
type `UnhandledRejection` whose value is the fixed text followed by the
stringified reason — whatever the classifier for non-primitive reasons
would do. -/
theorem handleUnhandledRejection_primitive_reason (classify : JSVal → Event)
    (e : JSVal) (h : (unwrapRejectionReason e).isPrim = true) :
    rejectionEventFromSignal classify e
      = some { exception := some { values := some
                                     [{ type := JSVal.str "UnhandledRejection",
                                        value := JSVal.str
                                          ("Non-Error promise rejection captured with value: "
                                            ++ jsToString (unwrapRejectionReason e)),
                                        stacktrace := none }] },
               message := none, level := some "error" } := by
  cases hr : unwrapRejectionReason e <;>
    simp_all [rejectionEventFromSignal, eventFromRejectionWithPrimitive,
      truthy, jsGet, JSVal.isPrim, hr]

theorem handleUnhandledRejection_primitive_reason_spot :
    rejectionEventFromSignal (fun _ => {}) (JSVal.obj [("reason", JSVal.str "oops")])
      = some { exception := some { values := some
                                     [{ type := JSVal.str "UnhandledRejection",
                                        value := JSVal.str
                                          "Non-Error promise rejection captured with value: oops",
                                        stacktrace := none }] },
               message := none, level := some "error" } :=
  handleUnhandledRejection_primitive_reason (fun _ => {})
    (JSVal.obj [("reason", JSVal.str "oops")]) rfl

/-- Claim C9: for every parser and throwable, if the exception built by
`exceptionFromError` would have an undefined type and an empty string
value, the value is replaced by the fixed fallback literal, so the
returned exception never has both an undefined type and an empty value. -/
theorem exceptionFromError_never_fully_empty
    (stackParser : String → Int → Except Unit (List StackFrame))
    (reactTest : String → Bool) (ex : JSError) :
    (((rawExceptionFromError stackParser reactTest ex).type.isUndef &&
        (rawExceptionFromError stackParser reactTest ex).value.isEmptyStr) = true →
      (exceptionFromError stackParser reactTest ex).value
        = JSVal.str "Unrecoverable error caught")
    ∧ ((exceptionFromError stackParser reactTest ex).type.isUndef &&
        (exceptionFromError stackParser reactTest ex).value.isEmptyStr) = false := by
  constructor
  · intro h
    simp [exceptionFromError, h]
  · by_cases h : ((rawExceptionFromError stackParser reactTest ex).type.isUndef &&
        (rawExceptionFromError stackParser reactTest ex).value.isEmptyStr) = true
    · simp only [exceptionFromError]
      rw [if_pos h]
      simp [JSVal.isEmptyStr]
    · simp only [exceptionFromError]
      rw [if_neg h]
      exact Bool.eq_false_iff.mpr h

theorem exceptionFromError_never_fully_empty_spot :
    (exceptionFromError (fun _ _ => Except.ok []) (fun _ => false)
        { name := JSVal.undef,
          message := JSVal.obj [("error", JSVal.obj [("message", JSVal.str "")])] }).value
      = JSVal.str "Unrecoverable error caught" :=
  (exceptionFromError_never_fully_empty (fun _ _ => Except.ok []) (fun _ => false)
    { name := JSVal.undef,
      message := JSVal.obj [("error", JSVal.obj [("message", JSVal.str "")])] }).1 rfl

/-- Claim C10: with the force flag unset, `captureExecption` never
forwards an error that is an AxiosError instance or carries the name
`NetworkError`; and an error is forwarded only when the force flag is set
or the error is not classified as a network error. -/
theorem captureExecption_networkError_filter (hubSet : Bool)
    (error : CaptureCandidate) :
    ((error.isAxiosInstance = true ∨ error.name = some "NetworkError") →
      captureExecption hubSet error false = false)
    ∧ (∀ force : Bool, captureExecption hubSet error force = true →
        force = true ∨ isNetworkError error = false) := by
  constructor
  · intro h
    rcases h with h | h <;> simp [captureExecption, isNetworkError, h]
  · intro force hf
    by_cases hn : isNetworkError error = true
    · cases force
      · exact absurd hf (by simp [captureExecption, hn])
      · exact Or.inl rfl
    · exact Or.inr (by simpa using hn)

theorem captureExecption_networkError_filter_spot :
    captureExecption true { isAxiosInstance := true, name := some "AxiosError" } false = false
    ∧ captureExecption true { isAxiosInstance := false, name := some "NetworkError" } false = false
    ∧ captureExecption true { isAxiosInstance := false, name := none } false = true :=
  ⟨(captureExecption_networkError_filter true
      { isAxiosInstance := true, name := some "AxiosError" }).1 (Or.inl rfl),
   (captureExecption_networkError_filter true
      { isAxiosInstance := false, name := some "NetworkError" }).1 (Or.inr rfl),
   rfl⟩

/-- Helper: the final empty-exception fixup of `exceptionFromError` only
rewrites `value`, so the stacktrace field of the result is that of the
raw exception. -/
theorem exceptionFromError_keeps_stacktrace
    (stackParser : String → Int → Except Unit (List StackFrame))
    (reactTest : String → Bool) (ex : JSError) :
    (exceptionFromError stackParser reactTest ex).stacktrace
      = (rawExceptionFromError stackParser reactTest ex).stacktrace := by
  simp only [exceptionFromError]
  split
  · rfl
  · rfl

/-- Helper: the raw exception has no stacktrace when the parsed frame
list is empty. -/
theorem rawExceptionFromError_stacktrace_of_nil
    (stackParser : String → Int → Except Unit (List StackFrame))
    (reactTest : String → Bool) (ex : JSError)
    (h : parseStackFrames stackParser reactTest ex = []) :
    (rawExceptionFromError stackParser reactTest ex).stacktrace = none := by
  simp [rawExceptionFromError, h]

/-- Helper: the raw exception wraps the parsed frame list when it is
non-empty. -/
theorem rawExceptionFromError_stacktrace_of_ne
    (stackParser : String → Int → Except Unit (List StackFrame))
    (reactTest : String → Bool) (ex : JSError)
    (h : parseStackFrames stackParser reactTest ex ≠ []) :
    (rawExceptionFromError stackParser reactTest ex).stacktrace
      = some { frames := some (parseStackFrames stackParser reactTest ex) } := by
  simp [rawExceptionFromError, List.length_eq_zero, h]

/-- Claim C6: when the stack-parser primitive fails on the inputs
`parseStackFrames` hands it, `parseStackFrames` returns the empty list
instead of propagating, and the exception built by `exceptionFromError`
then has no stacktrace at all; and whenever the parsed stack is
non-empty, the exception has a stacktrace whose frame list is that stack,
of positive length. -/
theorem parseStackFrames_degrades_and_frames
    (stackParser : String → Int → Except Unit (List StackFrame))
    (reactTest : String → Bool) (ex : JSError) :
    (stackParser (stackTraceInput ex) (getPopSize reactTest ex) = Except.error () →
      parseStackFrames stackParser reactTest ex = []
        ∧ (exceptionFromError stackParser reactTest ex).stacktrace = none)
    ∧ (parseStackFrames stackParser reactTest ex ≠ [] →
        (exceptionFromError stackParser reactTest ex).stacktrace
            = some { frames := some (parseStackFrames stackParser reactTest ex) }
          ∧ 0 < (parseStackFrames stackParser reactTest ex).length) := by
  constructor
  · intro h
    have hp : parseStackFrames stackParser reactTest ex = [] := by
      simp [parseStackFrames, h]
    refine ⟨hp, ?_⟩
    rw [exceptionFromError_keeps_stacktrace]
    exact rawExceptionFromError_stacktrace_of_nil stackParser reactTest ex hp
  · intro h
    rw [exceptionFromError_keeps_stacktrace]
    exact ⟨rawExceptionFromError_stacktrace_of_ne stackParser reactTest ex h,
      List.length_pos.mpr h⟩

theorem parseStackFrames_degrades_and_frames_spot :
    parseStackFrames (fun _ _ => Except.error ()) (fun _ => false) {} = []
    ∧ (exceptionFromError (fun _ _ => Except.error ()) (fun _ => false) {}).stacktrace = none
    ∧ (exceptionFromError (fun _ _ => Except.ok [{}]) (fun _ => false) {}).stacktrace
        = some { frames := some [{}] } :=
  ⟨((parseStackFrames_degrades_and_frames (fun _ _ => Except.error ())
      (fun _ => false) {}).1 rfl).1,
   ((parseStackFrames_degrades_and_frames (fun _ _ => Except.error ())
      (fun _ => false) {}).1 rfl).2,
   ((parseStackFrames_degrades_and_frames (fun _ _ => Except.ok [{}])
      (fun _ => false) {}).2 (List.cons_ne_nil _ _)).1⟩

/-- Claim C4: when the frame list of the first exception is non-empty,
`enhanceEventWithInitialFrame` leaves it unchanged; on an empty or absent
frame list it injects exactly one frame; and a second call with the same
arguments returns the first result unchanged. -/
theorem enhanceEventWithInitialFrame_idempotent (loc : String) (event : Event)
    (url line column : JSVal) :
    (event.firstFrames ≠ [] →
      (enhanceEventWithInitialFrame loc event url line column).firstFrames
        = event.firstFrames)
    ∧ (event.firstFrames = [] →
      (enhanceEventWithInitialFrame loc event url line column).firstFrames.length = 1)
    ∧ enhanceEventWithInitialFrame loc
        (enhanceEventWithInitialFrame loc event url line column) url line column
      = enhanceEventWithInitialFrame loc event url line column := by
  obtain ⟨exc, msg, lvl⟩ := event
  rcases exc with _ | ⟨vals⟩
  · exact ⟨fun h => absurd rfl h, fun _ => rfl, rfl⟩
  · rcases vals with _ | vs
    · exact ⟨fun h => absurd rfl h, fun _ => rfl, rfl⟩
    · rcases vs with _ | ⟨v, t⟩
      · exact ⟨fun h => absurd rfl h, fun _ => rfl, rfl⟩
      · obtain ⟨ty, va, stk⟩ := v
        rcases stk with _ | ⟨fr⟩
        · exact ⟨fun h => absurd rfl h, fun _ => rfl, rfl⟩
        · rcases fr with _ | fl
          · exact ⟨fun h => absurd rfl h, fun _ => rfl, rfl⟩
          · rcases fl with _ | ⟨f, fs⟩
            · exact ⟨fun h => absurd rfl h, fun _ => rfl, rfl⟩
            · exact ⟨fun _ => rfl, fun h => absurd h (List.cons_ne_nil _ _), rfl⟩

theorem enhanceEventWithInitialFrame_idempotent_spot :
    (enhanceEventWithInitialFrame "https://h.example/"
        { exception := some { values := some
                                [{ stacktrace := some
                                     { frames := some [{ filename := JSVal.str "lib.js" }] } }] } }
        (JSVal.str "a.js") (JSVal.num 1) (JSVal.num 2)).firstFrames
      = [{ filename := JSVal.str "lib.js" }]
    ∧ (enhanceEventWithInitialFrame "https://h.example/" {} (JSVal.str "a.js")
        (JSVal.num 1) (JSVal.num 2)).firstFrames.length = 1 :=
  ⟨(enhanceEventWithInitialFrame_idempotent "https://h.example/"
      { exception := some { values := some
                              [{ stacktrace := some
                                   { frames := some [{ filename := JSVal.str "lib.js" }] } }] } }
      (JSVal.str "a.js") (JSVal.num 1) (JSVal.num 2)).1 (List.cons_ne_nil _ _),
   (enhanceEventWithInitialFrame_idempotent "https://h.example/" {} (JSVal.str "a.js")
      (JSVal.num 1) (JSVal.num 2)).2.1 rfl⟩

/-- Claim C5 counterexample: with string inputs `"10"`/`"5"` — both
parseable as integers — the injected frame stores the raw strings, not
numbers: the claimed numeric coercion of lineno/colno does not happen. -/
theorem enhanceEventWithInitialFrame_raw_passthrough :
    (enhanceEventWithInitialFrame "https://fallback.example/" {} (JSVal.str "app.js")
        (JSVal.str "10") (JSVal.str "5")).firstFrames.map
        (fun f => (f.lineno, f.colno, f.lineno.isNum, f.colno.isNum))
      = [(JSVal.str "10", JSVal.str "5", false, false)] := by
  rfl

/-- Claim C5 amended: for every event with an empty or absent frame list,
the injected frame has function `?`, in_app true, lineno/colno equal to
the raw line/column inputs passed through unchanged when `parseInt`
succeeds on them (so they are numeric only when the inputs themselves
are) and undefined otherwise, and filename equal to the url when it is a
non-empty string, else the current document location. -/
theorem enhanceEventWithInitialFrame_injected_fields (loc : String) (event : Event)
    (url line column : JSVal) (h : event.firstFrames = []) :
    (enhanceEventWithInitialFrame loc event url line column).firstFrames
      = [{ colno := initialFrameNumField column,
           filename := initialFrameFilename loc url,
           function := JSVal.str "?",
           in_app := JSVal.bool true,
           lineno := initialFrameNumField line }] := by
  obtain ⟨exc, msg, lvl⟩ := event
  rcases exc with _ | ⟨vals⟩
  · rfl
  · rcases vals with _ | vs
    · rfl
    · rcases vs with _ | ⟨v, t⟩
      · rfl
      · obtain ⟨ty, va, stk⟩ := v
        rcases stk with _ | ⟨fr⟩
        · rfl
        · rcases fr with _ | fl
          · rfl
          · rcases fl with _ | ⟨f, fs⟩
            · rfl
            · exact absurd h (List.cons_ne_nil _ _)

theorem enhanceEventWithInitialFrame_injected_fields_spot :
    (enhanceEventWithInitialFrame "https://fallback.example/" {} (JSVal.str "page.js")
        (JSVal.str "abc") (JSVal.num 7)).firstFrames
      = [{ colno := JSVal.num 7, filename := JSVal.str "page.js",
           function := JSVal.str "?", in_app := JSVal.bool true,
           lineno := JSVal.undef }] :=
  enhanceEventWithInitialFrame_injected_fields "https://fallback.example/" {}
    (JSVal.str "page.js") (JSVal.str "abc") (JSVal.num 7) rfl

end MfeSentry
